import Mathlib

/-!
Shallow embedding of owfmodules.uart.baudrates (src/owfmodules/uart/baudrate_ascii.py),
the Octowire UART baudrate detection module, together with proofs about its
plausibility classifier, candidate sweep driver, option validation and
interactive handoff.

Bytes are modelled as Nat values below 256.  The received-byte environment of
one candidate probe is a list of polling-window outcomes: some b when a byte
arrived within the 1-second window, none when the window elapsed silently; an
exhausted list behaves like an endlessly silent line.  Operator input at the
acceptance prompt is a list of ASCII byte codes.
-/

namespace BaudrateAscii

/-- Python chr: byte value to the character with that code point. -/
def pyChr (n : Nat) : Char := Char.ofNat n

/-- The acceptance alphabet, built exactly as in BaudrateAscii.__init__:
list(map(chr, range(0x20, 127))) then append "\r", "\n", "\t", chr(0x1b). -/
def extended_asciitable : List Char :=
  ((List.range' 0x20 (127 - 0x20)).map pyChr) ++ ['\r', '\n', '\t', pyChr 0x1b]

/-- Python bytes.decode('utf-8') on a single byte: a byte below 0x80 decodes to
the character with that code point; any byte 0x80..0xFF alone is invalid UTF-8
and raises UnicodeDecodeError, modelled as none. -/
def decodeUtf8Single (b : Nat) : Option Char :=
  if b < 0x80 then some (pyChr b) else none

/-- The membership test of process_baudrate: decode the received byte as UTF-8
if possible (byte = tmp.decode('utf-8')), otherwise keep the raw bytes object
(which, being a bytes value, is never equal to any str in the table); then
test byte in self.extended_asciitable. -/
def isValidByte (b : Nat) : Bool :=
  match decodeUtf8Single b with
  | some c => extended_asciitable.contains c
  | none => false

/-- threshold = 20 in process_baudrate. -/
def threshold : Nat := 20

/-- Tri-state outcome of one candidate probe (the Probe Result of the spec). -/
inductive ProbeResult
  | Accepted
  | Rejected
  | Timeout
deriving DecidableEq, Repr

/-- Observable counters of one probe run: its result, how many bytes were
read (uart_instance.receive(1) calls), how many trigger emissions happened
(trigger_device calls) and how many polling windows ran (wait_bytes calls). -/
structure ProbeStats where
  result : ProbeResult
  reads : Nat
  trigs : Nat
  polls : Nat
deriving DecidableEq, Repr

/-- The tail of the probe loop once the input list is exhausted: every further
wait_bytes poll times out.  budget is the remaining trigger allowance
3 - loop.  Mirrors the elif/else of process_baudrate on a silent line. -/
def probeEmpty (trigger : Bool) (reads trigs polls : Nat) : Nat → ProbeStats
  | budget + 1 =>
    if trigger then probeEmpty trigger reads (trigs + 1) (polls + 1) budget
    else ⟨.Timeout, reads, trigs, polls + 1⟩
  | 0 => ⟨.Timeout, reads, trigs, polls + 1⟩

/-- The while-True loop of process_baudrate.  Each iteration polls once
(wait_bytes): on some b it reads that byte, classifies it against the
alphabet, increments count on a member (returning Accepted when count reaches
the threshold) and returns Rejected on a non-member; on none it either spends
one of the 3 trigger attempts (when the trigger option is set) or returns
Timeout. -/
def probeLoop (trigger : Bool) : List (Option Nat) → Nat → Nat → Nat → Nat → Nat → ProbeStats
  | some b :: rest, count, loop, reads, trigs, polls =>
    if isValidByte b then
      if count + 1 ≥ threshold then ⟨.Accepted, reads + 1, trigs, polls + 1⟩
      else probeLoop trigger rest (count + 1) loop (reads + 1) trigs (polls + 1)
    else ⟨.Rejected, reads + 1, trigs, polls + 1⟩
  | none :: rest, count, loop, reads, trigs, polls =>
    if trigger ∧ loop < 3 then probeLoop trigger rest count (loop + 1) reads (trigs + 1) (polls + 1)
    else ⟨.Timeout, reads, trigs, polls + 1⟩
  | [], _, loop, reads, trigs, polls => probeEmpty trigger reads trigs polls (3 - loop)

/-- Run the probe on a fresh candidate: count = 0, loop = 0, no reads,
triggers or polls yet. -/
def probeRun (trigger : Bool) (events : List (Option Nat)) : ProbeStats :=
  probeLoop trigger events 0 0 0 0 0

/-- Claim C1: the acceptance-alphabet membership test (UTF-8 decode of the
single received byte, falling back to the raw byte value, then membership in
extended_asciitable) accepts exactly the byte values 0x20..0x7E plus 0x0D,
0x0A, 0x09 and 0x1B, and rejects every other byte value 0x00..0xFF. -/
theorem alphabet_membership_exact (b : Nat) (h : b < 256) :
    isValidByte b = true ↔
      ((0x20 ≤ b ∧ b ≤ 0x7E) ∨ b = 0x0D ∨ b = 0x0A ∨ b = 0x09 ∨ b = 0x1B) := by
  revert b
  set_option maxRecDepth 20000 in decide

/-- Witness for C1 at concrete bytes 0x41 (accepted) and 0x1A (rejected). -/
theorem alphabet_membership_exact_witness :
    (0x41 < 256 ∧ (isValidByte 0x41 = true ↔
      ((0x20 ≤ 0x41 ∧ 0x41 ≤ 0x7E) ∨ 0x41 = 0x0D ∨ 0x41 = 0x0A ∨ 0x41 = 0x09 ∨ 0x41 = 0x1B))) ∧
    (0x1A < 256 ∧ (isValidByte 0x1A = true ↔
      ((0x20 ≤ 0x1A ∧ 0x1A ≤ 0x7E) ∨ 0x1A = 0x0D ∨ 0x1A = 0x0A ∨ 0x1A = 0x09 ∨ 0x1A = 0x1B))) :=
  ⟨⟨by decide, alphabet_membership_exact 0x41 (by decide)⟩,
   ⟨by decide, alphabet_membership_exact 0x1A (by decide)⟩⟩

/-- Helper: a run of polling outcomes that all deliver an alphabet member,
long enough to reach the threshold, drives the loop to Accepted, reading and
polling once per member. -/
lemma probeLoop_accept (trigger : Bool) (pre post : List (Option Nat))
    (count loop reads trigs polls : Nat)
    (hval : ∀ e ∈ pre, e.map isValidByte = some true)
    (hpos : 0 < pre.length) (hsum : count + pre.length = threshold) :
    probeLoop trigger (pre ++ post) count loop reads trigs polls =
      ⟨.Accepted, reads + pre.length, trigs, polls + pre.length⟩ := by
  induction pre generalizing count reads polls with
  | nil => simp at hpos
  | cons e rest ih =>
    have he := hval e (by simp)
    cases e with
    | none => simp at he
    | some b =>
      have hb : isValidByte b = true := by simpa using he
      simp only [List.cons_append, probeLoop, hb, if_true]
      by_cases h20 : count + 1 ≥ threshold
      · have hrest : rest = [] := by
          cases rest with
          | nil => rfl
          | cons x t =>
            exfalso
            simp only [List.length_cons, threshold] at hsum
            simp only [threshold] at h20
            omega
        subst hrest
        simp [h20]
      · rw [if_neg h20]
        simp only [List.append_eq]
        have hrest : 0 < rest.length := by
          by_contra hr
          have : rest.length = 0 := by omega
          simp only [List.length_cons, this] at hsum
          omega
        rw [ih (count + 1) (reads + 1) (polls + 1)
            (fun x hx => hval x (by simp [hx])) hrest (by simp only [List.length_cons] at hsum; omega)]
        simp only [List.length_cons, ProbeStats.mk.injEq, true_and]
        omega

/-- Claim C2: on a stream whose first 20 polling windows each deliver an
alphabet member, the probe reaches Accepted after reading exactly 20 bytes,
with no trigger emission, and reads no further bytes whatever follows. -/
theorem probe_accepts_after_twenty (trigger : Bool) (pre post : List (Option Nat))
    (hlen : pre.length = threshold)
    (hval : ∀ e ∈ pre, e.map isValidByte = some true) :
    probeRun trigger (pre ++ post) = ⟨.Accepted, 20, 0, 20⟩ := by
  have h := probeLoop_accept trigger pre post 0 0 0 0 0 hval
    (by rw [hlen]; decide) (by simpa using hlen)
  simpa [probeRun, hlen, threshold] using h

/-- Witness for C2: twenty windows delivering the byte 0x41, followed by more
input that is never read. -/
theorem probe_accepts_after_twenty_witness :
    probeRun true (List.replicate 20 (some 0x41) ++ [some 0x00, none]) =
      ⟨.Accepted, 20, 0, 20⟩ :=
  probe_accepts_after_twenty true (List.replicate 20 (some 0x41)) [some 0x00, none]
    (by decide)
    (fun e he => by rw [List.eq_of_mem_replicate he]; decide)

/-- Helper: alphabet members followed by a non-member, before the threshold is
reached, drive the loop to Rejected exactly at the offending byte. -/
lemma probeLoop_reject (trigger : Bool) (pre post : List (Option Nat)) (b : Nat)
    (count loop reads trigs polls : Nat)
    (hval : ∀ e ∈ pre, e.map isValidByte = some true)
    (hb : isValidByte b = false)
    (hsum : count + pre.length < threshold) :
    probeLoop trigger (pre ++ some b :: post) count loop reads trigs polls =
      ⟨.Rejected, reads + pre.length + 1, trigs, polls + pre.length + 1⟩ := by
  induction pre generalizing count reads polls with
  | nil => simp [probeLoop, hb]
  | cons e rest ih =>
    have he := hval e (by simp)
    cases e with
    | none => simp at he
    | some c =>
      have hc : isValidByte c = true := by simpa using he
      simp only [List.cons_append, probeLoop, hc, if_true]
      have h20 : ¬ count + 1 ≥ threshold := by
        simp only [List.length_cons, threshold] at hsum ⊢
        omega
      rw [if_neg h20]
      simp only [List.append_eq]
      rw [ih (count + 1) (reads + 1) (polls + 1)
          (fun x hx => hval x (by simp [hx])) (by simp only [List.length_cons] at hsum; omega)]
      simp only [List.length_cons, ProbeStats.mk.injEq, true_and]
      omega

/-- Claim C3: if, before 20 members have been accepted, a polling window
delivers a non-member byte, the probe reaches Rejected at that very read —
no further byte is read and no retry happens within the candidate. -/
theorem probe_rejects_immediately (trigger : Bool) (pre post : List (Option Nat)) (b : Nat)
    (hlen : pre.length < threshold)
    (hval : ∀ e ∈ pre, e.map isValidByte = some true)
    (hb : isValidByte b = false) :
    probeRun trigger (pre ++ some b :: post) =
      ⟨.Rejected, pre.length + 1, 0, pre.length + 1⟩ := by
  have h := probeLoop_reject trigger pre post b 0 0 0 0 0 hval hb (by omega)
  simpa [probeRun] using h

/-- Witness for C3: four members (0x41), then the non-member 0x00; the probe
rejects on the fifth read, ignoring the rest of the stream. -/
theorem probe_rejects_immediately_witness :
    probeRun true (List.replicate 4 (some 0x41) ++ some 0x00 :: [some 0x42]) =
      ⟨.Rejected, 5, 0, 5⟩ :=
  probe_rejects_immediately true (List.replicate 4 (some 0x41)) [some 0x42] 0x00
    (by decide)
    (fun e he => by rw [List.eq_of_mem_replicate he]; decide)
    (by decide)

/-- Helper: the silent tail with triggering enabled spends the whole remaining
trigger budget, then times out on one more poll. -/
lemma probeEmpty_trigger_true (budget reads trigs polls : Nat) :
    probeEmpty true reads trigs polls budget =
      ⟨.Timeout, reads, trigs + budget, polls + budget + 1⟩ := by
  induction budget generalizing trigs polls with
  | zero => simp [probeEmpty]
  | succ k ih =>
    simp only [probeEmpty, if_true]
    rw [ih]
    simp only [ProbeStats.mk.injEq, true_and]
    omega

/-- Helper: the silent tail with triggering disabled times out on the first
poll. -/
lemma probeEmpty_trigger_false (budget reads trigs polls : Nat) :
    probeEmpty false reads trigs polls budget = ⟨.Timeout, reads, trigs, polls + 1⟩ := by
  cases budget <;> simp [probeEmpty]

/-- Helper: with triggering enabled, a fully silent line (any number of empty
polling windows) yields Timeout after the remaining 3 - loop trigger
emissions and one final poll. -/
lemma probeLoop_silent_trigger (n count loop reads trigs polls : Nat) :
    probeLoop true (List.replicate n none) count loop reads trigs polls =
      ⟨.Timeout, reads, trigs + (3 - loop), polls + (3 - loop) + 1⟩ := by
  induction n generalizing loop trigs polls with
  | zero => simp [probeLoop, probeEmpty_trigger_true]
  | succ k ih =>
    simp only [List.replicate_succ, probeLoop, true_and]
    by_cases hl : loop < 3
    · rw [if_pos hl, ih (loop + 1)]
      simp only [ProbeStats.mk.injEq, true_and]
      omega
    · rw [if_neg hl]
      simp only [ProbeStats.mk.injEq, true_and]
      omega

/-- Helper: with triggering disabled, a fully silent line yields Timeout after
a single polling window. -/
lemma probeLoop_silent_no_trigger (n count loop reads trigs polls : Nat) :
    probeLoop false (List.replicate n none) count loop reads trigs polls =
      ⟨.Timeout, reads, trigs, polls + 1⟩ := by
  cases n with
  | zero => simp [probeLoop, probeEmpty_trigger_false]
  | succ k => simp [List.replicate_succ, probeLoop]

/-- Claim C4: on a candidate during which no byte ever arrives, triggering
enabled emits the trigger exactly 3 times before Timeout (4 polling windows in
all), and triggering disabled reaches Timeout after exactly one polling
window with zero trigger emissions. -/
theorem silent_candidate_trigger_budget (n : Nat) :
    probeRun true (List.replicate n none) = ⟨.Timeout, 0, 3, 4⟩ ∧
    probeRun false (List.replicate n none) = ⟨.Timeout, 0, 0, 1⟩ := by
  constructor
  · simpa [probeRun] using probeLoop_silent_trigger n 0 0 0 0 0
  · simpa [probeRun] using probeLoop_silent_no_trigger n 0 0 0 0 0

/-- Witness for C4 at a concrete silent stream of two empty windows. -/
theorem silent_candidate_trigger_budget_witness :
    probeRun true (List.replicate 2 none) = ⟨.Timeout, 0, 3, 4⟩ ∧
    probeRun false (List.replicate 2 none) = ⟨.Timeout, 0, 0, 1⟩ :=
  silent_candidate_trigger_budget 2

/-! ### Python string primitives used by the module

Python strings are modelled as lists of code points (List Char).  The
operations below model str.upper, str.split, str.strip and int() as the
module applies them; upper is modelled on the ASCII range, on which Python
coincides. -/

/-- Python str.upper on one code point, ASCII range. -/
def pyUpperChar (c : Char) : Char :=
  if 0x61 ≤ c.toNat ∧ c.toNat ≤ 0x7a then Char.ofNat (c.toNat - 0x20) else c

/-- Python str.upper. -/
def pyUpperL (l : List Char) : List Char := l.map pyUpperChar

/-- Python str.split(sep) for a one-character separator: splitting the empty
string yields [""], and n separators yield n+1 groups. -/
def pySplit (sep : Char) : List Char → List (List Char)
  | [] => [[]]
  | c :: rest =>
    if c = sep then [] :: pySplit sep rest
    else
      match pySplit sep rest with
      | [] => [[c]]
      | g :: gs => (c :: g) :: gs

/-- Python default whitespace for str.strip (ASCII part). -/
def pyIsSpace (c : Char) : Bool :=
  c = ' ' ∨ c = '\t' ∨ c = '\n' ∨ c = '\r' ∨ c = pyChr 0x0b ∨ c = pyChr 0x0c

/-- Python str.strip(): remove whitespace from both ends. -/
def pyStrip (l : List Char) : List Char :=
  ((l.dropWhile pyIsSpace).reverse.dropWhile pyIsSpace).reverse

/-- Decimal digit value of a code point, if any. -/
def digitVal (c : Char) : Option Nat :=
  if 0x30 ≤ c.toNat ∧ c.toNat ≤ 0x39 then some (c.toNat - 0x30) else none

/-- Accumulate a decimal number; none at the first non-digit. -/
def parseDigitsAux (acc : Nat) : List Char → Option Nat
  | [] => some acc
  | c :: rest =>
    match digitVal c with
    | some d => parseDigitsAux (acc * 10 + d) rest
    | none => none

/-- Python int(str): strip whitespace, optional sign, then decimal digits;
none models the ValueError raised on anything else. -/
def pyInt (l : List Char) : Option Int :=
  match pyStrip l with
  | [] => none
  | c :: rest =>
    if c = '-' then
      match rest with
      | [] => none
      | _ => (parseDigitsAux 0 rest).map (fun n => -(n : Int))
    else if c = '+' then
      match rest with
      | [] => none
      | _ => (parseDigitsAux 0 rest).map (fun n => (n : Int))
    else (parseDigitsAux 0 (c :: rest)).map (fun n => (n : Int))

/-! ### Options, validation and the sweep driver -/

/-- The user-facing options of the module (self.options and
self.advanced_options), with Python empty-string sentinels for the unset
reset pin turned into Option. -/
structure Options where
  uart_interface : Int
  mode : List Char
  reset_pin : Option Int
  trigger : Bool
  reset_pol : List Char
  reset_hold : Nat
  reset_delay : Nat
  baudrate_min : Int
  baudrate_max : Int
  baudrate_inc : Int
  baudrate_list : List Char
  trigger_char : List Nat

/-- check_options, line for line: polarity then pin index when a reset pin is
set; then the mode; then, in list mode, the split-and-strip of
baudrate_list rejected only when the resulting Python list is empty (the
except branch of the source logs but does not return False, and split/strip
cannot raise, so it contributes nothing to the result). -/
def checkOptions (o : Options) : Bool :=
  if o.reset_pin.isSome ∧
      ¬ (pyUpperL o.reset_pol = "LOW".toList ∨ pyUpperL o.reset_pol = "HIGH".toList) then
    false
  else if o.reset_pin.isSome ∧ ¬ (0 ≤ o.reset_pin.getD 0 ∧ o.reset_pin.getD 0 < 15) then
    false
  else if ¬ (pyUpperL o.mode = "INCREMENTAL".toList ∨ pyUpperL o.mode = "LIST".toList) then
    false
  else if pyUpperL o.mode = "LIST".toList ∧
      ((pySplit ',' o.baudrate_list).map pyStrip) = [] then
    false
  else true

/-- Number of elements of Python range(start, stop, step) for step ≠ 0. -/
def rangeLen (start stop step : Int) : Nat :=
  if step > 0 then
    if start < stop then ((stop - start - 1) / step).toNat + 1 else 0
  else
    if stop < start then ((start - stop - 1) / (-step)).toNat + 1 else 0

/-- start, start+step, ... with n elements. -/
def rangeList (start step : Int) : Nat → List Int
  | 0 => []
  | n + 1 => start :: rangeList (start + step) step n

/-- Python range(start, stop, step) materialised: raises ValueError (error)
when step = 0, otherwise the arithmetic progression short of stop. -/
def pythonRange (start stop step : Int) : Except String (List Int) :=
  if step = 0 then .error "range() arg 3 must not be zero"
  else .ok (rangeList start step (rangeLen start stop step))

/-- Observable events of one run: validation failure, hardware
initialization (init: UART construction and GPIO setup), per-candidate clock
reconfiguration and reset pulse, and the top-level error log. -/
inductive RunEvent
  | checkFail
  | hwInit
  | configure (baud : Int)
  | resetPulse
  | errorLog
deriving DecidableEq, Repr

/-- The per-candidate loop shared by incremental_mode and list_mode:
change_baudrate (modelled on its success path), reset_target, then
process_baudrate, whose True return breaks the sweep.  probe abstracts the
per-candidate probe outcome. -/
def sweep (probe : Int → Bool) : List Int → List RunEvent
  | [] => []
  | b :: rest =>
    .configure b :: .resetPulse :: (if probe b then [] else sweep probe rest)

/-- run(): check_options, then init (the first hardware interaction), then
the selected mode body; a ValueError escaping it — range with step 0, or
int() on a malformed list entry — is caught by the top-level handler and
logged as an error. -/
def run (o : Options) (probe : Int → Bool) : List RunEvent :=
  if checkOptions o then
    .hwInit ::
      (if pyUpperL o.mode = "INCREMENTAL".toList then
        match pythonRange o.baudrate_min o.baudrate_max o.baudrate_inc with
        | .ok bs => sweep probe bs
        | .error _ => [.errorLog]
      else if pyUpperL o.mode = "LIST".toList then
        match (pySplit ',' o.baudrate_list).mapM (fun g => pyInt (pyStrip g)) with
        | some bs => sweep probe bs
        | none => [.errorLog]
      else [])
  else [.checkFail]

/-! ### change_baudrate buffer handling -/

/-- The adapter operations performed by change_baudrate, in order:
serial_instance.read(serial_instance.in_waiting) is the raw transport flush,
configure(baudrate=...) the clock reconfiguration,
receive(in_waiting()) the protocol-layer flush. -/
inductive UartOp
  | flushSerialRaw
  | configureBaud
  | flushUartBuffer
deriving DecidableEq, Repr

/-- The operation sequence of change_baudrate on its success path. -/
def change_baudrate_ops : List UartOp :=
  [.flushSerialRaw, .configureBaud, .flushUartBuffer]

/-- Operations executed before the clock reconfiguration. -/
def opsBefore (ops : List UartOp) : List UartOp :=
  ops.takeWhile (fun o => decide (o ≠ UartOp.configureBaud))

/-- Operations executed after the clock reconfiguration. -/
def opsAfter (ops : List UartOp) : List UartOp :=
  (ops.dropWhile (fun o => decide (o ≠ UartOp.configureBaud))).drop 1

/-- Claim C7 as stated: both the raw transport flush and the protocol-layer
flush occur both before and after the reconfiguration. -/
def flushedBothSides (ops : List UartOp) : Prop :=
  UartOp.flushSerialRaw ∈ opsBefore ops ∧ UartOp.flushUartBuffer ∈ opsBefore ops ∧
  UartOp.flushSerialRaw ∈ opsAfter ops ∧ UartOp.flushUartBuffer ∈ opsAfter ops

/-! ### The interactive handoff -/

/-- Observable outcome of the acceptance branch of process_baudrate:
whether the miniterm passthrough was opened, and the value the function
returns to the sweep loop. -/
structure HandoffOutcome where
  miniterm : Bool
  retval : Bool
deriving DecidableEq, Repr

/-- The acceptance branch: prompt the operator; resp.upper() == 'Y' opens
the miniterm session; resp.upper() == 'C' makes process_baudrate return
False (continue testing); in every other case it returns True. -/
def acceptance_handoff (resp : List Char) : HandoffOutcome :=
  ⟨decide (pyUpperL resp = ['Y']), decide (¬ pyUpperL resp = ['C'])⟩

/-- Return value of process_baudrate for a whole candidate: the probe
followed, on acceptance, by the handoff. -/
def process_baudrate (trigger : Bool) (events : List (Option Nat)) (resp : List Char) : Bool :=
  match (probeRun trigger events).result with
  | .Accepted => (acceptance_handoff resp).retval
  | .Rejected => false
  | .Timeout => false

/-! ### Concrete option records used by the claims -/

/-- List mode with an unparsable baudrate_list. -/
def listModeBadOptions : Options :=
  { uart_interface := 0, mode := "list".toList, reset_pin := none, trigger := false,
    reset_pol := "low".toList, reset_hold := 0, reset_delay := 0,
    baudrate_min := 300, baudrate_max := 115200, baudrate_inc := 300,
    baudrate_list := "abc".toList, trigger_char := [0x0d, 0x0a] }

/-- Incremental mode with the given bounds, everything else at its default. -/
def incOptions (mn mx inc : Int) : Options :=
  { uart_interface := 0, mode := "incremental".toList, reset_pin := none, trigger := false,
    reset_pol := "low".toList, reset_hold := 0, reset_delay := 0,
    baudrate_min := mn, baudrate_max := mx, baudrate_inc := inc,
    baudrate_list := "9600,19200,38400,57600,115200".toList, trigger_char := [0x0d, 0x0a] }

/-- List mode with an empty baudrate_list string. -/
def emptyListOptions : Options := { listModeBadOptions with baudrate_list := [] }

/-! ### Helper lemmas -/

lemma charToNat_ofNat (k : Nat) (h : k < 0xd800) : (Char.ofNat k).toNat = k := by
  simp only [Char.ofNat, Nat.isValidChar, Char.toNat, Char.ofNatAux]
  rw [dif_pos (Or.inl h)]
  rfl

lemma charEq_of_toNat_eq {c d : Char} (h : c.toNat = d.toNat) : c = d :=
  Char.eq_of_val_eq (UInt32.ext h)

/-- For an uppercase ASCII letter u, pyUpperChar d = u exactly when d is u
itself or its lowercase counterpart. -/
lemma pyUpperChar_eq_iff (d u : Char) (h1 : 0x41 ≤ u.toNat) (h2 : u.toNat ≤ 0x5a) :
    pyUpperChar d = u ↔ (d = u ∨ d.toNat = u.toNat + 0x20) := by
  unfold pyUpperChar
  by_cases hd : 0x61 ≤ d.toNat ∧ d.toNat ≤ 0x7a
  · rw [if_pos hd]
    constructor
    · intro h
      have h3 : (Char.ofNat (d.toNat - 0x20)).toNat = u.toNat := congrArg Char.toNat h
      rw [charToNat_ofNat _ (by omega)] at h3
      right
      omega
    · rintro (rfl | h)
      · exfalso; omega
      · have hk : d.toNat - 0x20 = u.toNat := by omega
        rw [hk, Char.ofNat_toNat]
  · rw [if_neg hd]
    constructor
    · intro h; left; exact h
    · rintro (rfl | h)
      · rfl
      · exfalso; omega

/-- A whole response uppercases to the single uppercase letter u exactly when
it is the one-letter string u or its lowercase counterpart. -/
lemma pyUpperL_eq_single (resp : List Char) (lo up : Char)
    (h1 : 0x41 ≤ up.toNat) (h2 : up.toNat ≤ 0x5a) (hlo : lo.toNat = up.toNat + 0x20) :
    pyUpperL resp = [up] ↔ (resp = [lo] ∨ resp = [up]) := by
  cases resp with
  | nil => simp [pyUpperL]
  | cons a t =>
    cases t with
    | nil =>
      simp only [pyUpperL, List.map_cons, List.map_nil, List.cons.injEq, and_true]
      rw [pyUpperChar_eq_iff a up h1 h2]
      constructor
      · rintro (rfl | h)
        · right; rfl
        · left
          exact charEq_of_toNat_eq (by omega)
      · rintro (rfl | rfl)
        · right; omega
        · left; rfl
    | cons b t2 => simp [pyUpperL]

lemma handoff_miniterm_iff (resp : List Char) :
    (acceptance_handoff resp).miniterm = true ↔ pyUpperL resp = ['Y'] := by
  simp [acceptance_handoff]

lemma handoff_retval_false_iff (resp : List Char) :
    (acceptance_handoff resp).retval = false ↔ pyUpperL resp = ['C'] := by
  simp [acceptance_handoff]

/-- The sweep body never logs the top-level error: ValueError can only come
from building the candidate sequence. -/
lemma sweep_no_errorLog (probe : Int → Bool) (bs : List Int) :
    RunEvent.errorLog ∉ sweep probe bs := by
  induction bs with
  | nil => simp [sweep]
  | cons b rest ih =>
    intro h
    rcases List.mem_cons.mp h with h1 | h2
    · exact RunEvent.noConfusion h1
    rcases List.mem_cons.mp h2 with h3 | h4
    · exact RunEvent.noConfusion h3
    by_cases hb : probe b = true
    · rw [if_pos hb] at h4
      simp at h4
    · rw [if_neg hb] at h4
      exact ih h4

/-- Unfolding of run on incremental options: validation passes, hardware is
initialized, then the range candidates are swept or the range ValueError is
logged. -/
lemma run_incOptions (mn mx inc : Int) (probe : Int → Bool) :
    run (incOptions mn mx inc) probe =
      .hwInit :: (match pythonRange mn mx inc with
        | .ok bs => sweep probe bs
        | .error _ => [.errorLog]) := rfl

/-- Python split never produces an empty list of groups. -/
lemma pySplit_ne_nil (sep : Char) (l : List Char) : pySplit sep l ≠ [] := by
  induction l with
  | nil => simp [pySplit]
  | cons c t ih =>
    simp only [pySplit]
    split
    · simp
    · split
      · simp
      · simp

/-! ### Claims C5 to C10 -/

/-- Claim C5 is violated by the code (code_bug): with mode = list and the
unparsable baudrate_list = "abc", check_options returns True — the split
cannot raise, the split list is never empty, and the except branch does not
return False — so validation does not abort; the run initializes the
hardware and only then hits the int() ValueError, which the top-level
handler logs. -/
theorem invalid_list_not_detected_by_validation :
    checkOptions listModeBadOptions = true ∧
    (∀ probe : Int → Bool,
      run listModeBadOptions probe = [RunEvent.hwInit, RunEvent.errorLog]) :=
  ⟨by decide, fun _ => rfl⟩

/-- Counterexample to claim C6 as stated: with step = -1 < 0 (and min < max)
the Python range is simply empty, the sweep tests nothing, and no error is
ever reported to the user. -/
theorem incremental_negative_step_reports_no_error :
    (-1 : Int) ≤ 0 ∧
    RunEvent.errorLog ∉ run (incOptions 300 115200 (-1)) (fun _ => false) ∧
    run (incOptions 300 115200 (-1)) (fun _ => false) = [RunEvent.hwInit] := by
  decide

/-- Claim C6 amended: in incremental mode nothing is validated about the
bounds; only step = 0 makes range raise ValueError, which the top-level
handler reports without crashing; for step < 0 or min ≥ max with step ≠ 0
the candidate sequence is empty or decreasing and the sweep proceeds without
reporting any error.  In every case the run terminates normally. -/
theorem incremental_invalid_bounds_behavior (mn mx inc : Int) (probe : Int → Bool)
    (h : inc ≤ 0 ∨ mx ≤ mn) :
    (inc = 0 → run (incOptions mn mx inc) probe = [RunEvent.hwInit, RunEvent.errorLog]) ∧
    (inc ≠ 0 → RunEvent.errorLog ∉ run (incOptions mn mx inc) probe) := by
  constructor
  · rintro rfl
    rw [run_incOptions]
    rfl
  · intro h0
    rw [run_incOptions]
    have hok : pythonRange mn mx inc = .ok (rangeList mn inc (rangeLen mn mx inc)) := by
      unfold pythonRange
      rw [if_neg h0]
    rw [hok]
    intro hmem
    rcases List.mem_cons.mp hmem with h1 | h2
    · exact RunEvent.noConfusion h1
    · exact sweep_no_errorLog probe _ h2

/-- Witness for the amended C6 at min = 500 ≥ max = 300 with the default
step 300: the sweep reports no error. -/
theorem incremental_invalid_bounds_behavior_witness :
    RunEvent.errorLog ∉ run (incOptions 500 300 300) (fun _ => false) :=
  (incremental_invalid_bounds_behavior 500 300 300 (fun _ => false)
      (Or.inr (by norm_num))).2 (by norm_num)

/-- Counterexample to claim C7 as stated: change_baudrate does not flush both
layers on both sides of the reconfiguration. -/
theorem change_baudrate_not_flushed_both_sides :
    ¬ flushedBothSides change_baudrate_ops := by
  unfold flushedBothSides
  decide

/-- Claim C7 amended: change_baudrate flushes the raw transport buffer before
the clock reconfiguration and the protocol-layer buffer after it — and only
in that arrangement: no protocol-layer flush before, no raw flush after. -/
theorem change_baudrate_flush_order :
    UartOp.flushSerialRaw ∈ opsBefore change_baudrate_ops ∧
    UartOp.flushUartBuffer ∈ opsAfter change_baudrate_ops ∧
    UartOp.flushUartBuffer ∉ opsBefore change_baudrate_ops ∧
    UartOp.flushSerialRaw ∉ opsAfter change_baudrate_ops := by decide

/-- Claim C8: per acceptance exactly one of the three outcomes happens —
miniterm session opened, sweep stopped with success and no session, or the
acceptance discarded (retval false); choosing continue makes
process_baudrate return False, and a False probe return makes the sweep
move on to the next candidate in order. -/
theorem acceptance_outcomes (resp : List Char) (probe : Int → Bool) (b : Int)
    (rest : List Int) :
    (((acceptance_handoff resp).miniterm = true ∧
        ¬ ((acceptance_handoff resp).retval = true ∧
           (acceptance_handoff resp).miniterm = false) ∧
        ¬ (acceptance_handoff resp).retval = false) ∨
     (¬ (acceptance_handoff resp).miniterm = true ∧
        ((acceptance_handoff resp).retval = true ∧
         (acceptance_handoff resp).miniterm = false) ∧
        ¬ (acceptance_handoff resp).retval = false) ∨
     (¬ (acceptance_handoff resp).miniterm = true ∧
        ¬ ((acceptance_handoff resp).retval = true ∧
           (acceptance_handoff resp).miniterm = false) ∧
        (acceptance_handoff resp).retval = false)) ∧
    (pyUpperL resp = ['C'] → (acceptance_handoff resp).retval = false) ∧
    (probe b = false →
      sweep probe (b :: rest) =
        RunEvent.configure b :: RunEvent.resetPulse :: sweep probe rest) := by
  refine ⟨?_, ?_, ?_⟩
  · cases hm : (acceptance_handoff resp).miniterm <;>
      cases hr : (acceptance_handoff resp).retval
    · right; right; simp
    · right; left; simp
    · exfalso
      have hY := (handoff_miniterm_iff resp).mp hm
      have hC := (handoff_retval_false_iff resp).mp hr
      rw [hY] at hC
      exact absurd hC (by decide)
    · left; simp
  · intro h
    exact (handoff_retval_false_iff resp).mpr h
  · intro h
    simp [sweep, h]

/-- Witness for C8: the continue answer makes the probe return False, and the
sweep on a False probe advances from 9600 to the rest of the list. -/
theorem acceptance_outcomes_witness :
    (acceptance_handoff ['c']).retval = false ∧
    sweep (fun _ => false) (9600 :: [19200]) =
      RunEvent.configure 9600 :: RunEvent.resetPulse :: sweep (fun _ => false) [19200] :=
  ⟨(acceptance_outcomes ['c'] (fun _ => false) 9600 [19200]).2.1 (by decide),
   (acceptance_outcomes ['c'] (fun _ => false) 9600 [19200]).2.2 rfl⟩

/-- Claim C9: at the acceptance prompt, any response other than the
one-letter c (either case) yields True — including the empty response and
unrecognized input; y or Y opens the miniterm and still yields True; the
whole process_baudrate of an accepted candidate returns False exactly on c
or C. -/
theorem prompt_response_semantics (resp : List Char) :
    ((resp ≠ ['c'] ∧ resp ≠ ['C']) → (acceptance_handoff resp).retval = true) ∧
    ((resp = ['y'] ∨ resp = ['Y']) →
      (acceptance_handoff resp).miniterm = true ∧ (acceptance_handoff resp).retval = true) ∧
    ((acceptance_handoff resp).retval = false ↔ (resp = ['c'] ∨ resp = ['C'])) ∧
    (∀ (trigger : Bool) (events : List (Option Nat)),
      (probeRun trigger events).result = ProbeResult.Accepted →
      (process_baudrate trigger events resp = false ↔ (resp = ['c'] ∨ resp = ['C']))) := by
  have hC : (acceptance_handoff resp).retval = false ↔ (resp = ['c'] ∨ resp = ['C']) := by
    rw [handoff_retval_false_iff]
    exact pyUpperL_eq_single resp 'c' 'C' (by decide) (by decide) (by decide)
  refine ⟨?_, ?_, hC, ?_⟩
  · intro h
    cases hr : (acceptance_handoff resp).retval
    · exfalso
      rcases hC.mp hr with rfl | rfl
      · exact h.1 rfl
      · exact h.2 rfl
    · rfl
  · rintro (rfl | rfl) <;> exact ⟨by decide, by decide⟩
  · intro trigger events hacc
    unfold process_baudrate
    rw [hacc]
    exact hC

/-- Witness for C9: on an accepted candidate the empty operator response does
not continue the sweep (process_baudrate does not return False). -/
theorem prompt_response_semantics_witness :
    process_baudrate true (List.replicate 20 (some 0x41)) [] = false ↔
      (([] : List Char) = ['c'] ∨ ([] : List Char) = ['C']) :=
  (prompt_response_semantics []).2.2.2 true (List.replicate 20 (some 0x41)) (by decide)

/-- Claim C10: Python split always yields at least one group, so the
Empty-or-invalid-baudrate-list branch of check_options is unreachable:
validation is entirely independent of the baudrate_list contents, and the
empty baudrate_list string passes validation in list mode. -/
theorem list_validation_branch_unreachable :
    (∀ l : List Char, pySplit ',' l ≠ []) ∧
    (∀ (o : Options) (l1 l2 : List Char),
      checkOptions { o with baudrate_list := l1 } =
        checkOptions { o with baudrate_list := l2 }) ∧
    checkOptions emptyListOptions = true := by
  refine ⟨pySplit_ne_nil ',', ?_, by decide⟩
  intro o l1 l2
  have hkey : ∀ l : List Char,
      (pyUpperL o.mode = "LIST".toList ∧ ((pySplit ',' l).map pyStrip) = []) ↔ False := by
    intro l
    simp only [iff_false]
    rintro ⟨-, hmap⟩
    exact pySplit_ne_nil ',' l (List.map_eq_nil_iff.mp hmap)
  simp only [checkOptions, hkey]

end BaudrateAscii
